import Mathlib

/-!
Verification development for the OpenPGP smartcard driver
(`src/libopensc/card-openpgp.c`).

The driver's data model (the fake blob file tree over OpenPGP data
objects), its lazy loader, TLV expansion, path resolver, binary reader,
security environment, and crypto-operation APDU framing are shallowly
embedded below.  Machine integers become `Nat`/`Int`; C ints returned
as error/success verdicts become `Int` (negative = error) or `Except`;
the in-place mutation of a blob becomes explicit state passing.  APDU
transmission, the ISO 7816 collaborator, and the BER-TLV primitive
`sc_asn1_read_tag` are external to the translation unit; the latter is
modelled from the specification, the former are abstracted as oracles.
-/

namespace OpenPGP

/-- Modelled from the spec: numeric error codes live in `errors.h`,
which is not part of this translation unit.  Only the distinctness of
the codes and their negativity matter to the driver code; the values
below are arbitrary distinct negatives. -/
def SC_SUCCESS : Int := 0

/-- Modelled from the spec: `errors.h` code for a missing file. -/
def SC_ERROR_FILE_NOT_FOUND : Int := -1201

/-- Modelled from the spec: `errors.h` code for malformed TLV content. -/
def SC_ERROR_OBJECT_NOT_VALID : Int := -1202

/-- Modelled from the spec: `errors.h` code for invalid arguments. -/
def SC_ERROR_INVALID_ARGUMENTS : Int := -1300

/-- Modelled from the spec: `errors.h` code for an out-of-range offset. -/
def SC_ERROR_INCORRECT_PARAMETERS : Int := -1301

/-- Modelled from the spec: `errors.h` code for refused operations. -/
def SC_ERROR_NOT_SUPPORTED : Int := -1400

/-- Modelled from the spec: `opensc.h` file-type constant (leaf EF). -/
def SC_FILE_TYPE_WORKING_EF : Nat := 0x01

/-- Modelled from the spec: `opensc.h` file-type constant (directory). -/
def SC_FILE_TYPE_DF : Nat := 0x04

/-- Modelled from the spec: `opensc.h` path-type constant (AID / DF name). -/
def SC_PATH_TYPE_DF_NAME : Nat := 1

/-- Modelled from the spec: `opensc.h` path-type constant (ID path). -/
def SC_PATH_TYPE_PATH : Nat := 2

/-- Modelled from the spec: `opensc.h` APDU case-4 constant. -/
def SC_APDU_CASE_4 : Nat := 4

/-- Modelled from the spec: `opensc.h` security-env flag bits. -/
def SC_SEC_ENV_FILE_REF_PRESENT : Nat := 0x02

/-- Modelled from the spec: `opensc.h` security-env flag bits. -/
def SC_SEC_ENV_KEY_REF_PRESENT : Nat := 0x04

/-- Modelled from the spec: `opensc.h` security-env flag bits. -/
def SC_SEC_ENV_ALG_PRESENT : Nat := 0x10

/-- Modelled from the spec: `opensc.h` security operations. -/
def SC_SEC_OPERATION_DECIPHER : Nat := 1

/-- Modelled from the spec: `opensc.h` security operations. -/
def SC_SEC_OPERATION_SIGN : Nat := 2

/-- Modelled from the spec: `opensc.h` algorithm identifier for RSA. -/
def SC_ALGORITHM_RSA : Nat := 0

/-- Modelled from the spec: `asn1.h` mask for the ASN.1 class bits. -/
def SC_ASN1_TAG_CLASS : Nat := 0xC0

/-- Modelled from the spec: `asn1.h` constructed bit of a tag byte. -/
def SC_ASN1_TAG_CONSTRUCTED : Nat := 0x20

/-- Modelled from the spec: `asn1.h` primitive (tag-number) mask. -/
def SC_ASN1_TAG_PRIMITIVE : Nat := 0x1F

/-- One row of `struct do_info` (the DO Registry).  Its `get_fn`
function pointer is represented by the `Card.get_fn` oracle below,
keyed by the blob id exactly as the driver invokes it. -/
structure DoInfo where
  id : Nat
  constructed : Bool
  size : Nat
deriving Repr, DecidableEq

/-- The slice of `sc_file_t` the driver reads and maintains for a blob:
its type (DF vs working EF) and its size. -/
structure ScFileView where
  ftype : Nat
  size : Nat
deriving Repr, DecidableEq

/-- The scalar fields of `struct blob` (everything except the child
list `files`). -/
structure BlobCore where
  id : Nat
  info : Option DoInfo
  status : Int
  data : Option (List Nat)
  len : Nat
  file : ScFileView
deriving Repr

/-- A node of the fake file hierarchy, `struct blob`: scalar fields
plus the ordered child list `files`.  The `parent`/`next` pointers of
the C struct are represented by the position in the parent's list. -/
inductive Blob where
  | mk (core : BlobCore) (files : List Blob)

def Blob.core : Blob → BlobCore
  | .mk c _ => c

def Blob.files : Blob → List Blob
  | .mk _ fs => fs

def Blob.id (b : Blob) : Nat := b.core.id

def Blob.info (b : Blob) : Option DoInfo := b.core.info

def Blob.status (b : Blob) : Int := b.core.status

def Blob.data (b : Blob) : Option (List Nat) := b.core.data

def Blob.len (b : Blob) : Nat := b.core.len

def Blob.file (b : Blob) : ScFileView := b.core.file

/-- The bytes of the cached buffer (empty when no buffer is held). -/
def Blob.dataBytes (b : Blob) : List Nat := b.data.getD []

def Blob.withCore (b : Blob) (c : BlobCore) : Blob := .mk c b.files

def Blob.withFiles (b : Blob) (fs : List Blob) : Blob := .mk b.core fs

@[simp] theorem Blob.core_mk (c : BlobCore) (fs : List Blob) : (Blob.mk c fs).core = c := rfl

@[simp] theorem Blob.files_mk (c : BlobCore) (fs : List Blob) : (Blob.mk c fs).files = fs := rfl

@[simp] theorem Blob.id_mk (c : BlobCore) (fs : List Blob) : (Blob.mk c fs).id = c.id := rfl

@[simp] theorem Blob.info_mk (c : BlobCore) (fs : List Blob) : (Blob.mk c fs).info = c.info := rfl

@[simp] theorem Blob.status_mk (c : BlobCore) (fs : List Blob) : (Blob.mk c fs).status = c.status := rfl

@[simp] theorem Blob.data_mk (c : BlobCore) (fs : List Blob) : (Blob.mk c fs).data = c.data := rfl

@[simp] theorem Blob.len_mk (c : BlobCore) (fs : List Blob) : (Blob.mk c fs).len = c.len := rfl

@[simp] theorem Blob.file_mk (c : BlobCore) (fs : List Blob) : (Blob.mk c fs).file = c.file := rfl

@[simp] theorem Blob.withFiles_mk (c : BlobCore) (fs fs2 : List Blob) :
    (Blob.mk c fs).withFiles fs2 = Blob.mk c fs2 := rfl

@[simp] theorem Blob.withCore_mk (c c2 : BlobCore) (fs : List Blob) :
    (Blob.mk c fs).withCore c2 = Blob.mk c2 fs := rfl

/-- The card as seen by the driver: its extended-APDU capability bit
and the getter dispatched through `blob->info->get_fn`, receiving the
blob id and the local buffer size, and returning either a negative
error or the bytes it produced.  All registry rows route either to
`sc_get_data` or a pubkey getter; both are outside this translation
unit, so they are a single abstract oracle. -/
structure Card where
  capsExt : Bool
  get_fn : Nat → Nat → Except Int (List Nat)

/-- Buffer size used by `pgp_read_blob`: a 2048-byte local buffer when
the card advertises extended APDU, 256 bytes otherwise. -/
def bufLen (card : Card) : Nat := if card.capsExt then 2048 else 256

/-- `sc_security_env_t`: the fields the driver reads.  The C `key_ref`
is a fixed array; it is represented as a list read with default 0,
matching a zero-initialised array. -/
structure sc_security_env where
  flags : Nat
  operation : Nat
  algorithm : Nat
  key_ref : List Nat
  key_ref_len : Nat
deriving Repr, DecidableEq

/-- The driver's per-card private data, `struct pgp_priv_data`. -/
structure PgpPriv where
  mf : Blob
  current : Option Blob
  sec_env : sc_security_env

/-- `pgp_set_blob`: drop any prior buffer, copy in the new bytes (an
empty input leaves no buffer), reset the sticky status, and update the
file view's size. -/
def pgp_set_blob (b : Blob) (bytes : List Nat) : Blob :=
  b.withCore { b.core with
    data := if bytes.length > 0 then some bytes else none
    len := bytes.length
    status := 0
    file := { b.core.file with size := bytes.length } }

/-- `pgp_read_blob`: lazy load of a blob.  Already-present data is a
success; a blob without registry descriptor returns its stored status;
otherwise the getter runs, a failure being recorded in `status`.  The
third component counts getter invocations (0 or 1), making the
issuing of the GET DATA APDU observable in the embedding. -/
def pgp_read_blob (card : Card) (b : Blob) : Blob × Int × Nat :=
  if b.data.isSome then (b, SC_SUCCESS, 0)
  else
    match b.info with
    | none => (b, b.status, 0)
    | some _ =>
      match card.get_fn b.id (bufLen card) with
      | .error r => (b.withCore { b.core with status := r }, r, 1)
      | .ok bytes => (pgp_set_blob b bytes, SC_SUCCESS, 1)

/-- Modelled from the spec: high-tag-number accumulation of
`sc_asn1_read_tag` (not in this translation unit).  Subsequent tag
bytes are shifted into the tag value until one without the 0x80
continuation bit; at most 3 further bytes fit the C unsigned. -/
def readHighTag : Nat → Nat → List Nat → Option (Nat × List Nat)
  | 0, _, _ => none
  | _ + 1, _, [] => none
  | f + 1, tag, c :: rest =>
    let tag2 := (tag <<< 8) ||| c
    if c &&& 0x80 = 0 then some (tag2, rest) else readHighTag f tag2 rest

/-- Big-endian value of a byte list. -/
def beVal (bytes : List Nat) : Nat := bytes.foldl (fun acc b => acc * 256 + b) 0

/-- Modelled from the spec: the length octets of a BER-TLV header as
read by `sc_asn1_read_tag`.  Short form, or long form with the given
number of length bytes; indefinite length and truncation are
malformed. -/
def readLen : List Nat → Option (Nat × List Nat)
  | [] => none
  | c :: rest =>
    if c < 0x80 then some (c, rest)
    else
      let n := c - 0x80
      if n = 0 then none
      else if n ≤ rest.length then some (beVal (rest.take n), rest.drop n) else none

/-- Modelled from the spec: `sc_asn1_read_tag`, the BER-TLV parse
primitive of the host framework.  From a byte range it yields the
class-plus-constructed bits, the tag (with the 0x1F prefix and the
raw subsequent bytes kept, whose split from the class the driver later
undoes), the length, and the cursor to the value; a truncated or
malformed element (including a length overrunning the range) is an
error, reported here as `none`. -/
def readTag (bytes : List Nat) : Option (Nat × Nat × Nat × List Nat) :=
  match bytes with
  | [] => none
  | b :: rest =>
    let cla := (b &&& SC_ASN1_TAG_CLASS) ||| (b &&& SC_ASN1_TAG_CONSTRUCTED)
    let t0 := b &&& SC_ASN1_TAG_PRIMITIVE
    match (if t0 = SC_ASN1_TAG_PRIMITIVE then readHighTag 3 t0 rest else some (t0, rest)) with
    | none => none
    | some (tag, r1) =>
      match readLen r1 with
      | none => none
      | some (len, r2) => if len ≤ r2.length then some (cla, tag, len, r2) else none

/-- The `while` loop body of `pgp_enumerate_blob`, fuelled by the
buffer length (each iteration consumes at least the one-byte header,
so the fuel never runs out on the initial call).  Returns the
`(class, tag, value)` triples of the elements parsed before any
parser error together with the error flag; elements parsed before the
error are kept, exactly as the C loop has already appended them. -/
def tlvChildrenAux : Nat → List Nat → List (Nat × Nat × List Nat) × Bool
  | _, [] => ([], false)
  | 0, _ :: _ => ([], true)
  | fuel + 1, b :: rest =>
    match readTag (b :: rest) with
    | none => ([], true)
    | some (cla, tag, len, r2) =>
      let value := r2.take len
      let step := tlvChildrenAux fuel (r2.drop len)
      ((cla, tag, value) :: step.1, step.2)

/-- TLV decomposition of a buffer as performed by the enumerate loop. -/
def tlvChildren (bytes : List Nat) : List (Nat × Nat × List Nat) × Bool :=
  tlvChildrenAux bytes.length bytes

/-- The loop of `pgp_enumerate_blob` undoing ASN1's split of tag and
class: shift the class left 8 bits per additional tag byte.  Fuelled
by 4, the width of the C unsigned in bytes. -/
def shiftClaAux : Nat → Nat → Nat → Nat
  | 0, cla, _ => cla
  | f + 1, cla, t => if 0xFF < t then shiftClaAux f (cla <<< 8) (t >>> 8) else cla

/-- The external 16-bit tag: class bits shifted past the extra tag
bytes, OR-ed with the tag. -/
def combineTag (cla tag : Nat) : Nat := tag ||| shiftClaAux 4 cla tag

/-- A child blob created by `pgp_new_blob(blob, tag, type, NULL)`
followed by `pgp_set_blob(new, data, len)` during TLV expansion:
a DF for constructed DOs, with no registry descriptor, its content
set at creation. -/
def mkTlvChild (cla tag : Nat) (value : List Nat) : Blob :=
  let ftype := if cla &&& SC_ASN1_TAG_CONSTRUCTED ≠ 0 then SC_FILE_TYPE_DF
               else SC_FILE_TYPE_WORKING_EF
  pgp_set_blob
    (Blob.mk { id := combineTag cla tag, info := none, status := 0,
               data := none, len := 0,
               file := { ftype := ftype, size := 0 } } [])
    value

/-- `pgp_enumerate_blob`: expand a blob's buffer into child blobs.
Non-empty children short-circuit to success.  Otherwise the blob is
lazily read, then the TLV loop runs; children created before a parser
error stay appended while the call returns `SC_ERROR_OBJECT_NOT_VALID`. -/
def pgp_enumerate_blob (card : Card) (b : Blob) : Blob × Int :=
  if b.files.isEmpty then
    match pgp_read_blob card b with
    | (b2, r, _) =>
      if r < 0 then (b2, r)
      else
        match tlvChildren b2.dataBytes with
        | (kids, failed) =>
          let b3 := b2.withFiles (kids.map fun e => mkTlvChild e.1 e.2.1 e.2.2)
          if failed then (b3, SC_ERROR_OBJECT_NOT_VALID) else (b3, SC_SUCCESS)
  else (b, SC_SUCCESS)

/-- Replace the first child carrying the given id (the in-place update
of the found child through its pointer in C). -/
def replaceFirst : List Blob → Nat → Blob → List Blob
  | [], _, _ => []
  | c :: cs, id, nc => if c.id = id then nc :: cs else c :: replaceFirst cs id nc

/-- `pgp_get_blob`: enumerate the blob, linearly search its children
for the id, lazily read the found child (result discarded, as the C
casts it to void), and return it; a missing id is `FILE_NOT_FOUND`. -/
def pgp_get_blob (card : Card) (b : Blob) (id : Nat) : Blob × Except Int Blob :=
  match pgp_enumerate_blob card b with
  | (b2, r) =>
    if r < 0 then (b2, .error r)
    else
      match b2.files.find? (fun c => c.id == id) with
      | some child =>
        let child2 := (pgp_read_blob card child).1
        (b2.withFiles (replaceFirst b2.files id child2), .ok child2)
      | none => (b2, .error SC_ERROR_FILE_NOT_FOUND)

/-- The 2-byte big-endian file ids of an ID path,
`(value[n] << 8) | value[n+1]`. -/
def pathIds : List Nat → List Nat
  | a :: b :: rest => ((a <<< 8) ||| b) :: pathIds rest
  | _ => []

/-- One leading `3F 00` id is stripped (the root is implicit). -/
def stripRoot (v : List Nat) : List Nat :=
  if v.take 2 = [0x3F, 0x00] then v.drop 2 else v

/-- The descent loop of `pgp_select_file`: repeated `pgp_get_blob`
from the current node, walking into the returned child. -/
def selectLoop (card : Card) : Blob → List Nat → Except Int Blob
  | b, [] => .ok b
  | b, id :: ids =>
    match (pgp_get_blob card b id).2 with
    | .error e => .error e
    | .ok child => selectLoop card child ids

/-- An `sc_path_t` restricted to the fields the driver reads. -/
structure ScPath where
  ptype : Nat
  value : List Nat

/-- Outcome of `pgp_select_file`: delegation to the ISO collaborator
for DF-name paths, an error code, or the duplicated file view. -/
inductive SelectResult where
  | iso
  | err (e : Int)
  | ok (f : ScFileView)
deriving Repr, DecidableEq

/-- `pgp_select_file`: DF-name paths go to the ISO collaborator;
other non-ID paths are invalid; ID paths of odd length or length
below 2 are invalid; one leading `3F 00` is stripped; then the loop
descends from the root.  A failing descent clears `current`; success
installs the resolved blob as `current` and duplicates its file view. -/
def pgp_select_file (card : Card) (priv : PgpPriv) (path : ScPath) :
    PgpPriv × SelectResult :=
  if path.ptype = SC_PATH_TYPE_DF_NAME then (priv, .iso)
  else if path.ptype ≠ SC_PATH_TYPE_PATH then (priv, .err SC_ERROR_INVALID_ARGUMENTS)
  else if path.value.length < 2 ∨ path.value.length % 2 = 1 then
    (priv, .err SC_ERROR_INVALID_ARGUMENTS)
  else
    let v := stripRoot path.value
    match selectLoop card priv.mf (pathIds v) with
    | .error e => ({ priv with current := none }, .err e)
    | .ok blob => ({ priv with current := some blob }, .ok blob.file)

/-- `pgp_read_binary`: requires a selected working EF; lazily reads
it; an offset beyond the cached length is `INCORRECT_PARAMETERS`; the
count is clamped to the remaining length and that many bytes are
copied out of the cached buffer from the offset. -/
def pgp_read_binary (card : Card) (priv : PgpPriv) (idx count : Nat) :
    Except Int (List Nat) :=
  match priv.current with
  | none => .error SC_ERROR_FILE_NOT_FOUND
  | some blob =>
    if blob.file.ftype ≠ SC_FILE_TYPE_WORKING_EF then .error SC_ERROR_FILE_NOT_FOUND
    else
      match pgp_read_blob card blob with
      | (b2, r, _) =>
        if r < 0 then .error r
        else if b2.len < idx then .error SC_ERROR_INCORRECT_PARAMETERS
        else
          let cnt := if b2.len < idx + count then b2.len - idx else count
          .ok ((b2.dataBytes.drop idx).take cnt)

/-- `pgp_write_binary`: unconditionally refused. -/
def pgp_write_binary (priv : PgpPriv) (idx : Nat) (buf : List Nat)
    (count : Nat) (flags : Nat) : PgpPriv × Int :=
  (priv, SC_ERROR_NOT_SUPPORTED)

/-- `pgp_put_data`: unconditionally refused. -/
def pgp_put_data (priv : PgpPriv) (tag : Nat) (buf : List Nat)
    (buf_len : Nat) : PgpPriv × Int :=
  (priv, SC_ERROR_NOT_SUPPORTED)

/-- `pgp_set_security_env`: validate the env (algorithm, key
reference, file reference, operation-specific key-reference rules)
and snapshot it into the session on success. -/
def pgp_set_security_env (priv : PgpPriv) (env : sc_security_env) :
    PgpPriv × Int :=
  if env.flags &&& SC_SEC_ENV_ALG_PRESENT ≠ 0 ∧ env.algorithm ≠ SC_ALGORITHM_RSA then
    (priv, SC_ERROR_INVALID_ARGUMENTS)
  else if env.flags &&& SC_SEC_ENV_KEY_REF_PRESENT = 0 ∨ env.key_ref_len ≠ 1 then
    (priv, SC_ERROR_INVALID_ARGUMENTS)
  else if env.flags &&& SC_SEC_ENV_FILE_REF_PRESENT ≠ 0 then
    (priv, SC_ERROR_INVALID_ARGUMENTS)
  else if env.operation = SC_SEC_OPERATION_SIGN then
    if env.key_ref.headD 0 ≠ 0x00 ∧ env.key_ref.headD 0 ≠ 0x02 then
      (priv, SC_ERROR_NOT_SUPPORTED)
    else ({ priv with sec_env := env }, SC_SUCCESS)
  else if env.operation = SC_SEC_OPERATION_DECIPHER then
    if env.key_ref.headD 0 ≠ 0x01 then (priv, SC_ERROR_NOT_SUPPORTED)
    else ({ priv with sec_env := env }, SC_SUCCESS)
  else (priv, SC_ERROR_INVALID_ARGUMENTS)

/-- The fields of `sc_apdu_t` the two crypto operations set before
transmitting. -/
structure sc_apdu where
  cse : Nat
  cla : Nat
  ins : Nat
  p1 : Nat
  p2 : Nat
  lc : Nat
  data : List Nat
  datalen : Nat
  le : Nat
  resplen : Nat
deriving Repr, DecidableEq

/-- `sc_format_apdu` as the driver uses it: the case, instruction and
parameters; the card's class byte is 0 (set at init). -/
def sc_format_apdu (cse ins p1 p2 : Nat) : sc_apdu :=
  { cse := cse, cla := 0, ins := ins, p1 := p1, p2 := p2,
    lc := 0, data := [], datalen := 0, le := 0, resplen := 0 }

/-- The common tail of both crypto operations: install the command
data, and set `le` to 256 when the response buffer is at least 256
bytes and the card lacks extended APDU, to the buffer length
otherwise. -/
def finishApdu (card : Card) (a : sc_apdu) (dat : List Nat) (outlen : Nat) : sc_apdu :=
  { a with lc := dat.length, data := dat, datalen := dat.length,
           le := if 256 ≤ outlen ∧ ¬ card.capsExt then 256 else outlen,
           resplen := outlen }

/-- `pgp_compute_signature`: gated on the session env being a Sign
env; key ref 0x00 frames PSO COMPUTE DIGITAL SIGNATURE, 0x02 frames
INTERNAL AUTHENTICATE, 0x01 and all others are invalid.  The result
is the APDU handed to the transport. -/
def pgp_compute_signature (card : Card) (priv : PgpPriv)
    (dat : List Nat) (outlen : Nat) : Except Int sc_apdu :=
  let env := priv.sec_env
  if env.operation ≠ SC_SEC_OPERATION_SIGN then .error SC_ERROR_INVALID_ARGUMENTS
  else if env.key_ref.headD 0 = 0x00 then
    .ok (finishApdu card (sc_format_apdu SC_APDU_CASE_4 0x2A 0x9E 0x9A) dat outlen)
  else if env.key_ref.headD 0 = 0x02 then
    .ok (finishApdu card (sc_format_apdu SC_APDU_CASE_4 0x88 0 0) dat outlen)
  else if env.key_ref.headD 0 = 0x01 then .error SC_ERROR_INVALID_ARGUMENTS
  else .error SC_ERROR_INVALID_ARGUMENTS

/-- `pgp_decipher`: a 0x00 padding indicator byte is prepended to the
input before framing; gated on a Decipher env with key ref 0x01,
which frames PSO DECIPHER; all other key refs are invalid. -/
def pgp_decipher (card : Card) (priv : PgpPriv)
    (inBytes : List Nat) (outlen : Nat) : Except Int sc_apdu :=
  let temp := 0x00 :: inBytes
  let env := priv.sec_env
  if env.operation ≠ SC_SEC_OPERATION_DECIPHER then .error SC_ERROR_INVALID_ARGUMENTS
  else if env.key_ref.headD 0 = 0x01 then
    .ok (finishApdu card (sc_format_apdu SC_APDU_CASE_4 0x2A 0x80 0x86) temp outlen)
  else .error SC_ERROR_INVALID_ARGUMENTS

/-- The indices of the ATR byte array read by the extended-APDU
capability detection in `pgp_init`: the scan loop reads each index
while it is in range and the byte is not 0x73; the subsequent test
reads `hist_bytes[i]` unconditionally, and reads `hist_bytes[i+3]`
when the 0x73 test passed and `len > i+3`. -/
def pgp_init_atr_reads (atr : List Nat) : List Nat :=
  if atr.length = 0 then []
  else
    let len := atr.length
    let i := atr.findIdx (fun b => b == 0x73)
    let loopReads := List.range (min (i + 1) len)
    let checkReads :=
      i :: (if atr.getD i 0 = 0x73 ∧ i + 3 < len then [i + 3] else [])
    loopReads ++ checkReads

/-! Concrete cards, blobs and sessions used to evaluate the embedding
on explicit inputs. -/

/-- A card whose getter always fails (never reached in the scenarios
that use it, whose blobs hold cached data). -/
def cardW : Card := { capsExt := false, get_fn := fun _ _ => .error (-1404) }

/-- A card whose getter always fails with a fixed error. -/
def cardErrW : Card := { capsExt := false, get_fn := fun _ _ => .error (-7) }

/-- A card whose getter returns three bytes for every DO. -/
def cardOkW : Card := { capsExt := false, get_fn := fun _ _ => .ok [1, 2, 3] }

/-- A registry descriptor for the AID DO 0x004F. -/
def infoW : DoInfo := { id := 0x004F, constructed := false, size := 0 }

/-- A blob with a registry descriptor whose previous load failed:
sticky negative status, absent data. -/
def failedBlobW : Blob :=
  Blob.mk { id := 0x004F, info := some infoW, status := -1404, data := none,
            len := 0, file := { ftype := SC_FILE_TYPE_WORKING_EF, size := 0 } } []

/-- A TLV-expansion child (no descriptor) with a stored status. -/
def noInfoBlobW : Blob :=
  Blob.mk { id := 0x0101, info := none, status := -1404, data := none,
            len := 0, file := { ftype := SC_FILE_TYPE_WORKING_EF, size := 0 } } []

/-- An empty root blob. -/
def mfEmptyW : Blob :=
  Blob.mk { id := 0x3F00, info := none, status := 0, data := none,
            len := 0, file := { ftype := SC_FILE_TYPE_DF, size := 0 } } []

/-- A cached leaf blob of length 3. -/
def leafBlobW : Blob :=
  Blob.mk { id := 0x004F, info := none, status := 0, data := some [9, 8, 7],
            len := 3, file := { ftype := SC_FILE_TYPE_WORKING_EF, size := 3 } } []

/-- A zeroed security environment (the `calloc`-ed initial state). -/
def envZeroW : sc_security_env :=
  { flags := 0, operation := 0, algorithm := 0, key_ref := [], key_ref_len := 0 }

/-- A session whose current selection is the cached leaf. -/
def privReadW : PgpPriv := { mf := mfEmptyW, current := some leafBlobW, sec_env := envZeroW }

/-- A Decipher security environment with key reference 0x01. -/
def envDecipherW : sc_security_env :=
  { flags := SC_SEC_ENV_KEY_REF_PRESENT, operation := SC_SEC_OPERATION_DECIPHER,
    algorithm := SC_ALGORITHM_RSA, key_ref := [0x01], key_ref_len := 1 }

/-- A Sign security environment with key reference 0x00. -/
def envSignW : sc_security_env :=
  { flags := SC_SEC_ENV_KEY_REF_PRESENT, operation := SC_SEC_OPERATION_SIGN,
    algorithm := SC_ALGORITHM_RSA, key_ref := [0x00], key_ref_len := 1 }

/-- A session holding the Decipher environment. -/
def privDecipherW : PgpPriv := { mf := mfEmptyW, current := none, sec_env := envDecipherW }

/-- A session holding the Sign environment. -/
def privSignW : PgpPriv := { mf := mfEmptyW, current := none, sec_env := envSignW }

/-- The APDU framed by `pgp_decipher` on input `[0xAB, 0xCD]` with a
16-byte response buffer. -/
def apduDecipherW : sc_apdu :=
  { cse := SC_APDU_CASE_4, cla := 0, ins := 0x2A, p1 := 0x80, p2 := 0x86,
    lc := 3, data := [0x00, 0xAB, 0xCD], datalen := 3, le := 16, resplen := 16 }

/-- A directory blob whose cached buffer holds one well-formed TLV
(`4F 01 AA`) followed by a truncated one (`4F 05` with no value). -/
def truncatedDirW : Blob :=
  Blob.mk { id := 0x0065, info := none, status := 0,
            data := some [0x4F, 0x01, 0xAA, 0x4F, 0x05], len := 5,
            file := { ftype := SC_FILE_TYPE_DF, size := 5 } } []

/-! Claim theorems. -/

/-- C1, counterexample: a blob with a registry descriptor whose load
previously failed (negative sticky status, data absent) does not
short-circuit on the next read: the getter is invoked again (the APDU
is re-issued), the verdict is the getter's fresh result rather than
the stored one, and the data is repopulated when the getter now
succeeds. -/
theorem C1_counterexample :
    failedBlobW.status < 0 ∧ failedBlobW.data = none ∧
    (pgp_read_blob cardOkW failedBlobW).2.2 = 1 ∧
    (pgp_read_blob cardOkW failedBlobW).2.1 ≠ failedBlobW.status ∧
    (pgp_read_blob cardOkW failedBlobW).1.data = some [1, 2, 3] := by
  refine ⟨by decide, rfl, rfl, by decide, rfl⟩

/-- C1 (amended): a repeated read access returns the stored verdict
without invoking the getter only for a blob without registry
descriptor; for a blob with a descriptor the getter is re-invoked
(the APDU re-issued), and when it fails again the fresh failure is
stored and returned with the data still absent. -/
theorem C1_theorem (card : Card) (b : Blob) (hd : b.data = none) :
    (b.info = none → pgp_read_blob card b = (b, b.status, 0)) ∧
    (b.info.isSome = true →
      (pgp_read_blob card b).2.2 = 1 ∧
      ∀ r : Int, card.get_fn b.id (bufLen card) = .error r →
        (pgp_read_blob card b).1.data = none ∧
        (pgp_read_blob card b).1.status = r ∧
        (pgp_read_blob card b).2.1 = r) := by
  constructor
  · intro hi
    simp [pgp_read_blob, hd, hi]
  · intro hi
    obtain ⟨inf, hinf⟩ := Option.isSome_iff_exists.mp hi
    cases hg : card.get_fn b.id (bufLen card) with
    | error e =>
      have hrb : pgp_read_blob card b = (b.withCore { b.core with status := e }, e, 1) := by
        unfold pgp_read_blob
        rw [hd, hinf, hg]
        simp
      refine ⟨by rw [hrb], ?_⟩
      intro r hr
      injection hr with hre
      subst hre
      rw [hrb]
      cases b with
      | mk c fs =>
        refine ⟨?_, rfl, rfl⟩
        simpa [Blob.withCore, Blob.data] using hd
    | ok bytes =>
      have hrb : pgp_read_blob card b = (pgp_set_blob b bytes, SC_SUCCESS, 1) := by
        unfold pgp_read_blob
        rw [hd, hinf, hg]
        simp
      refine ⟨by rw [hrb], ?_⟩
      intro r hr
      cases hr

/-- C1, witness for the amended claim at concrete inputs: a blob
without descriptor returns its stored status with no getter call, and
a blob with descriptor facing a still-failing getter stores and
returns the fresh error with data absent. -/
theorem C1_witness :
    pgp_read_blob cardErrW noInfoBlobW = (noInfoBlobW, noInfoBlobW.status, 0) ∧
    ((pgp_read_blob cardErrW failedBlobW).1.data = none ∧
     (pgp_read_blob cardErrW failedBlobW).1.status = -7 ∧
     (pgp_read_blob cardErrW failedBlobW).2.1 = -7) :=
  ⟨(C1_theorem cardErrW noInfoBlobW rfl).1 rfl,
   ((C1_theorem cardErrW failedBlobW rfl).2 rfl).2 (-7) rfl⟩

/-- C2, counterexample: enumerating a directory blob whose buffer
ends in a truncated TLV fails with `OBJECT_NOT_VALID`, yet the child
created from the element parsed before the error is committed: the
children list goes from empty to holding the id 0x4F. -/
theorem C2_counterexample :
    truncatedDirW.files = [] ∧
    (pgp_enumerate_blob cardW truncatedDirW).2 = SC_ERROR_OBJECT_NOT_VALID ∧
    ((pgp_enumerate_blob cardW truncatedDirW).1.files.map Blob.id) = [0x4F] := by
  refine ⟨rfl, rfl, rfl⟩

/-- C4: for a selected working-EF blob with cached buffer `d`,
`read_binary(offset, count)` fails with `INCORRECT_PARAMETERS` when
the offset exceeds the cached length, and otherwise returns exactly
`min count (len - offset)` bytes, the slice of the cached buffer
starting at the offset (so it never reads past the buffer). -/
theorem C4_theorem (card : Card) (priv : PgpPriv) (blob : Blob)
    (d : List Nat) (idx count : Nat)
    (hcur : priv.current = some blob)
    (hef : blob.file.ftype = SC_FILE_TYPE_WORKING_EF)
    (hdata : blob.data = some d)
    (hlen : blob.len = d.length) :
    (d.length < idx →
      pgp_read_binary card priv idx count = .error SC_ERROR_INCORRECT_PARAMETERS) ∧
    (idx ≤ d.length →
      pgp_read_binary card priv idx count = .ok ((d.drop idx).take count) ∧
      ((d.drop idx).take count).length = min count (d.length - idx)) := by
  have hread : pgp_read_blob card blob = (blob, SC_SUCCESS, 0) := by
    unfold pgp_read_blob
    rw [hdata]
    rfl
  have key : pgp_read_binary card priv idx count =
      (if d.length < idx then .error SC_ERROR_INCORRECT_PARAMETERS
       else .ok ((d.drop idx).take
              (if d.length < idx + count then d.length - idx else count))) := by
    simp only [pgp_read_binary, hcur, hread, hef, ne_eq, not_true_eq_false,
      if_false, hlen, Blob.dataBytes, hdata, Option.getD_some]
    norm_num [SC_SUCCESS]
  constructor
  · intro hgt
    rw [key, if_pos hgt]
  · intro hle
    constructor
    · rw [key, if_neg (by omega)]
      by_cases hc : d.length < idx + count
      · rw [if_pos hc]
        congr 1
        rw [List.take_eq_take]
        simp only [List.length_drop]
        omega
      · rw [if_neg hc]
    · simp only [List.length_take, List.length_drop]

/-- C4, witness at a concrete selected leaf of length 3: offset 4 is
rejected, and offset 1 with count 5 returns the 2-byte tail slice. -/
theorem C4_witness :
    pgp_read_binary cardW privReadW 4 2 = .error SC_ERROR_INCORRECT_PARAMETERS ∧
    pgp_read_binary cardW privReadW 1 5 = .ok (([9, 8, 7].drop 1).take 5) :=
  ⟨(C4_theorem cardW privReadW leafBlobW [9, 8, 7] 4 2 rfl rfl rfl rfl).1 (by decide),
   ((C4_theorem cardW privReadW leafBlobW [9, 8, 7] 1 5 rfl rfl rfl rfl).2 (by decide)).1⟩

/-- C6: whenever `decipher` frames an APDU for transmission, its data
field is the single padding indicator byte 0x00 followed by the input
unchanged, with data length (and Lc) equal to the input length plus
one. -/
theorem C6_theorem (card : Card) (priv : PgpPriv) (inBytes : List Nat)
    (outlen : Nat) (a : sc_apdu)
    (h : pgp_decipher card priv inBytes outlen = .ok a) :
    a.data = 0x00 :: inBytes ∧ a.datalen = inBytes.length + 1 ∧
    a.lc = inBytes.length + 1 := by
  simp only [pgp_decipher] at h
  split at h
  · cases h
  · split at h
    · simp only [Except.ok.injEq] at h
      subst h
      simp [finishApdu, sc_format_apdu]
    · cases h

/-- C6, witness: with the Decipher environment and input
`[0xAB, 0xCD]`, the framed APDU carries `00 AB CD`. -/
theorem C6_witness :
    apduDecipherW.data = 0x00 :: [0xAB, 0xCD] ∧
    apduDecipherW.datalen = [0xAB, 0xCD].length + 1 ∧
    apduDecipherW.lc = [0xAB, 0xCD].length + 1 :=
  C6_theorem cardW privDecipherW [0xAB, 0xCD] 16 apduDecipherW rfl

/-- C8: `write_binary` and `put_data` return `NOT_SUPPORTED` for
every input, leaving the session state (and so the blob tree hanging
off it) unchanged. -/
theorem C8_theorem (priv : PgpPriv) (idx count flags tag buf_len : Nat)
    (buf buf2 : List Nat) :
    pgp_write_binary priv idx buf count flags = (priv, SC_ERROR_NOT_SUPPORTED) ∧
    pgp_put_data priv tag buf2 buf_len = (priv, SC_ERROR_NOT_SUPPORTED) :=
  ⟨rfl, rfl⟩

/-- C10, evaluation at the failing input: on the 1-byte ATR `[0x3B]`,
which contains no 0x73, the capability detection of `pgp_init` reads
index 1 of the ATR byte array, which is not strictly less than the
ATR length — an out-of-bounds read contradicting the claim. -/
theorem C10_theorem :
    1 ∈ pgp_init_atr_reads [0x3B] ∧ ¬ 1 < ([0x3B] : List Nat).length := by
  decide

/-! Helper lemmas about the lazy loader, shared by the enumerate
theorems. -/

theorem Blob.withFiles_self (b : Blob) : b.withFiles b.files = b := by
  cases b
  rfl

/-- The lazy loader never touches the child list. -/
theorem pgp_read_blob_files (card : Card) (b : Blob) :
    (pgp_read_blob card b).1.files = b.files := by
  rcases b with ⟨⟨id, info, status, data, len, file⟩, fs⟩
  cases data with
  | some d => simp [pgp_read_blob]
  | none =>
    cases info with
    | none => simp [pgp_read_blob]
    | some i =>
      cases hg : card.get_fn id (bufLen card) with
      | error e => simp [pgp_read_blob, hg, Blob.withCore]
      | ok bytes => simp [pgp_read_blob, hg, pgp_set_blob, Blob.withCore]

/-- Reading an already-read blob reproduces it with the same verdict
(the getter oracle is a function, hence deterministic). -/
theorem pgp_read_blob_stable (card : Card) (b : Blob) :
    (pgp_read_blob card ((pgp_read_blob card b).1)).1 = (pgp_read_blob card b).1 ∧
    (pgp_read_blob card ((pgp_read_blob card b).1)).2.1 = (pgp_read_blob card b).2.1 := by
  rcases b with ⟨⟨id, info, status, data, len, ⟨ftype, size⟩⟩, fs⟩
  cases data with
  | some d => simp [pgp_read_blob]
  | none =>
    cases info with
    | none => simp [pgp_read_blob]
    | some i =>
      cases hg : card.get_fn id (bufLen card) with
      | error e => simp [pgp_read_blob, hg, Blob.withCore]
      | ok bytes =>
        cases bytes with
        | nil => simp [pgp_read_blob, hg, pgp_set_blob, Blob.withCore]
        | cons x xs => simp [pgp_read_blob, hg, pgp_set_blob, Blob.withCore]

/-- C2 (amended): when the blob's children are already present the
enumeration succeeds without touching them, and when the bytes load
but the BER-TLV walk hits a truncated or malformed element, the call
fails with `OBJECT_NOT_VALID` while the children created from the
elements parsed before the error stay committed — the expansion is
not atomic. -/
theorem C2_theorem (card : Card) (b : Blob) :
    (b.files.isEmpty = false → pgp_enumerate_blob card b = (b, SC_SUCCESS)) ∧
    (b.files = [] → 0 ≤ (pgp_read_blob card b).2.1 →
      ∀ kids, tlvChildren (pgp_read_blob card b).1.dataBytes = (kids, true) →
        pgp_enumerate_blob card b =
          ((pgp_read_blob card b).1.withFiles
             (kids.map fun e => mkTlvChild e.1 e.2.1 e.2.2),
           SC_ERROR_OBJECT_NOT_VALID)) := by
  constructor
  · intro hx
    simp [pgp_enumerate_blob, hx]
  · intro h0 hr kids hk
    have hbe : b.files.isEmpty = true := by simp [h0]
    rcases hrb : pgp_read_blob card b with ⟨br, r, n⟩
    rw [hrb] at hr hk
    simp only at hr hk
    unfold pgp_enumerate_blob
    rw [hbe, hrb]
    simp only [if_true]
    rw [if_neg (by omega), hk]
    simp

/-- C2, witness for the amended claim: on the concrete truncated
buffer, enumeration returns `OBJECT_NOT_VALID` with exactly the
child of the first, well-formed element committed. -/
theorem C2_witness :
    pgp_enumerate_blob cardW truncatedDirW =
      ((pgp_read_blob cardW truncatedDirW).1.withFiles
         ([((0x40 : Nat), (0x0F : Nat), ([0xAA] : List Nat))].map
            fun e => mkTlvChild e.1 e.2.1 e.2.2),
       SC_ERROR_OBJECT_NOT_VALID) :=
  (C2_theorem cardW truncatedDirW).2 rfl (by decide) [(0x40, 0x0F, [0xAA])] rfl

/-- C9: TLV expansion is idempotent.  A blob with a non-empty child
list is expanded to itself, unchanged; and whenever an expansion
succeeds, re-expanding its result succeeds and changes nothing, so a
second resolution through the same constructed DO sees the same
children, with the same ids, in the same order. -/
theorem C9_theorem (card : Card) (b : Blob) :
    (b.files.isEmpty = false → pgp_enumerate_blob card b = (b, SC_SUCCESS)) ∧
    (∀ b2, pgp_enumerate_blob card b = (b2, SC_SUCCESS) →
      pgp_enumerate_blob card b2 = (b2, SC_SUCCESS)) := by
  have expand : ∀ x : Blob, x.files.isEmpty = false →
      pgp_enumerate_blob card x = (x, SC_SUCCESS) := by
    intro x hx
    simp [pgp_enumerate_blob, hx]
  refine ⟨expand b, ?_⟩
  intro b2 h
  cases hb : b.files.isEmpty with
  | false =>
    rw [expand b hb] at h
    simp only [Prod.mk.injEq] at h
    obtain ⟨h1, -⟩ := h
    subst h1
    exact expand b hb
  | true =>
    have hfe : b.files = [] := List.isEmpty_iff.mp hb
    unfold pgp_enumerate_blob at h
    rw [hb] at h
    simp only [if_true] at h
    rcases hrb : pgp_read_blob card b with ⟨br, r, n⟩
    rw [hrb] at h
    by_cases hr : r < 0
    · rw [if_pos hr] at h
      simp only [Prod.mk.injEq] at h
      obtain ⟨-, h2⟩ := h
      rw [h2] at hr
      exact absurd hr (by norm_num [SC_SUCCESS])
    · rw [if_neg hr] at h
      rcases hk : tlvChildren br.dataBytes with ⟨kids, failed⟩
      rw [hk] at h
      cases failed with
      | true =>
        simp only [if_true, Prod.mk.injEq] at h
        obtain ⟨-, h2⟩ := h
        exact absurd h2 (by norm_num [SC_ERROR_OBJECT_NOT_VALID, SC_SUCCESS])
      | false =>
        simp only [if_false, Bool.false_eq_true, Prod.mk.injEq] at h
        obtain ⟨h1, -⟩ := h
        cases kids with
        | cons k ks =>
          refine expand b2 ?_
          rw [← h1]
          simp [Blob.withFiles]
        | nil =>
          have hbrf : br.files = [] := by
            have := pgp_read_blob_files card b
            rw [hrb] at this
            simp only at this
            rw [this, hfe]
          have hb2 : b2 = br := by
            rw [← h1]
            simp only [List.map_nil]
            calc br.withFiles [] = br.withFiles br.files := by rw [hbrf]
            _ = br := Blob.withFiles_self br
          subst hb2
          have hst := pgp_read_blob_stable card b
          rw [hrb] at hst
          simp only at hst
          unfold pgp_enumerate_blob
          rw [show b2.files.isEmpty = true by simp [hbrf]]
          simp only [if_true]
          rcases hrb2 : pgp_read_blob card b2 with ⟨br2, r2, n2⟩
          rw [hrb2] at hst
          simp only at hst
          obtain ⟨hst1, hst2⟩ := hst
          subst hst1
          rw [if_neg (by rw [hst2]; exact hr)]
          rw [hk]
          simp only [if_false, Bool.false_eq_true, List.map_nil]
          calc (br2.withFiles [], SC_SUCCESS)
              = (br2.withFiles br2.files, SC_SUCCESS) := by rw [hbrf]
          _ = (br2, SC_SUCCESS) := by rw [Blob.withFiles_self]

/-- C9, witness: a concrete blob with one child is expanded to
itself with success. -/
theorem C9_witness :
    pgp_enumerate_blob cardW
        (Blob.mk truncatedDirW.core [leafBlobW]) =
      (Blob.mk truncatedDirW.core [leafBlobW], SC_SUCCESS) :=
  (C9_theorem cardW (Blob.mk truncatedDirW.core [leafBlobW])).1 rfl

/-- C3: `compute_signature` frames an APDU — PSO COMPUTE DIGITAL
SIGNATURE (case 4, INS 0x2A, P1 0x9E, P2 0x9A) for key ref 0x00,
INTERNAL AUTHENTICATE (case 4, INS 0x88, P1 0, P2 0) for key ref
0x02 — exactly when the session env is a Sign env with one of those
key refs, and fails with `INVALID_ARGUMENTS` (in particular for key
ref 0x01 and for non-Sign envs) otherwise; `decipher` frames PSO
DECIPHER (case 4, INS 0x2A, P1 0x80, P2 0x86) exactly when the env
is a Decipher env with key ref 0x01, failing with
`INVALID_ARGUMENTS` otherwise. -/
theorem C3_theorem (card : Card) (priv : PgpPriv) (dat inBytes : List Nat)
    (outlen : Nat) :
    ((∃ a, pgp_compute_signature card priv dat outlen = .ok a) ↔
      (priv.sec_env.operation = SC_SEC_OPERATION_SIGN ∧
        (priv.sec_env.key_ref.headD 0 = 0x00 ∨ priv.sec_env.key_ref.headD 0 = 0x02))) ∧
    (∀ a, pgp_compute_signature card priv dat outlen = .ok a →
      a.cse = SC_APDU_CASE_4 ∧
      (priv.sec_env.key_ref.headD 0 = 0x00 → a.ins = 0x2A ∧ a.p1 = 0x9E ∧ a.p2 = 0x9A) ∧
      (priv.sec_env.key_ref.headD 0 = 0x02 → a.ins = 0x88 ∧ a.p1 = 0 ∧ a.p2 = 0)) ∧
    (∀ e, pgp_compute_signature card priv dat outlen = .error e →
      e = SC_ERROR_INVALID_ARGUMENTS) ∧
    ((∃ a, pgp_decipher card priv inBytes outlen = .ok a) ↔
      (priv.sec_env.operation = SC_SEC_OPERATION_DECIPHER ∧
        priv.sec_env.key_ref.headD 0 = 0x01)) ∧
    (∀ a, pgp_decipher card priv inBytes outlen = .ok a →
      a.cse = SC_APDU_CASE_4 ∧ a.ins = 0x2A ∧ a.p1 = 0x80 ∧ a.p2 = 0x86) ∧
    (∀ e, pgp_decipher card priv inBytes outlen = .error e →
      e = SC_ERROR_INVALID_ARGUMENTS) := by
  by_cases hop : priv.sec_env.operation = SC_SEC_OPERATION_SIGN <;>
  by_cases hopd : priv.sec_env.operation = SC_SEC_OPERATION_DECIPHER <;>
  by_cases h0 : priv.sec_env.key_ref.headD 0 = 0x00 <;>
  by_cases h1 : priv.sec_env.key_ref.headD 0 = 0x01 <;>
  by_cases h2 : priv.sec_env.key_ref.headD 0 = 0x02 <;>
  simp_all [pgp_compute_signature, pgp_decipher, finishApdu, sc_format_apdu,
    SC_SEC_OPERATION_SIGN, SC_SEC_OPERATION_DECIPHER, SC_APDU_CASE_4]

/-- C3, witness: a Sign env with key ref 0x00 lets
`compute_signature` frame an APDU, and a Decipher env with key ref
0x01 lets `decipher` frame one. -/
theorem C3_witness :
    (∃ a, pgp_compute_signature cardW privSignW [1, 2] 8 = .ok a) ∧
    (∃ a, pgp_decipher cardW privDecipherW [1, 2] 8 = .ok a) :=
  ⟨(C3_theorem cardW privSignW [1, 2] [1, 2] 8).1.mpr ⟨rfl, Or.inl rfl⟩,
   (C3_theorem cardW privDecipherW [1, 2] [1, 2] 8).2.2.2.1.mpr ⟨rfl, rfl⟩⟩

/-- C5: `set_security_env` returns `INVALID_ARGUMENTS` when a
non-RSA algorithm is specified, when the key reference is absent or
not exactly one byte, when a file reference is present, or when the
operation is neither Sign nor Decipher; with those checks passed it
returns `NOT_SUPPORTED` on a key reference mismatching the operation
(other than 0x00/0x02 for Sign, other than 0x01 for Decipher); and
the given env is snapshotted into the session exactly on success. -/
theorem C5_theorem (priv : PgpPriv) (env : sc_security_env) :
    ((env.flags &&& SC_SEC_ENV_ALG_PRESENT ≠ 0 ∧ env.algorithm ≠ SC_ALGORITHM_RSA) ∨
      (env.flags &&& SC_SEC_ENV_KEY_REF_PRESENT = 0 ∨ env.key_ref_len ≠ 1) ∨
      env.flags &&& SC_SEC_ENV_FILE_REF_PRESENT ≠ 0 ∨
      (env.operation ≠ SC_SEC_OPERATION_SIGN ∧ env.operation ≠ SC_SEC_OPERATION_DECIPHER) →
      pgp_set_security_env priv env = (priv, SC_ERROR_INVALID_ARGUMENTS)) ∧
    (¬ (env.flags &&& SC_SEC_ENV_ALG_PRESENT ≠ 0 ∧ env.algorithm ≠ SC_ALGORITHM_RSA) →
     ¬ (env.flags &&& SC_SEC_ENV_KEY_REF_PRESENT = 0 ∨ env.key_ref_len ≠ 1) →
     env.flags &&& SC_SEC_ENV_FILE_REF_PRESENT = 0 →
      ((env.operation = SC_SEC_OPERATION_SIGN →
        env.key_ref.headD 0 ≠ 0x00 → env.key_ref.headD 0 ≠ 0x02 →
          pgp_set_security_env priv env = (priv, SC_ERROR_NOT_SUPPORTED)) ∧
       (env.operation = SC_SEC_OPERATION_DECIPHER → env.key_ref.headD 0 ≠ 0x01 →
          pgp_set_security_env priv env = (priv, SC_ERROR_NOT_SUPPORTED)) ∧
       (env.operation = SC_SEC_OPERATION_SIGN →
        (env.key_ref.headD 0 = 0x00 ∨ env.key_ref.headD 0 = 0x02) →
          pgp_set_security_env priv env = ({ priv with sec_env := env }, SC_SUCCESS)) ∧
       (env.operation = SC_SEC_OPERATION_DECIPHER → env.key_ref.headD 0 = 0x01 →
          pgp_set_security_env priv env = ({ priv with sec_env := env }, SC_SUCCESS)))) ∧
    (∀ priv2 r, pgp_set_security_env priv env = (priv2, r) → r ≠ SC_SUCCESS →
      priv2 = priv) ∧
    (∀ priv2, pgp_set_security_env priv env = (priv2, SC_SUCCESS) →
      priv2.sec_env = env) := by
  refine ⟨?_, ?_, ?_, ?_⟩
  · intro h
    unfold pgp_set_security_env
    by_cases hA : env.flags &&& SC_SEC_ENV_ALG_PRESENT ≠ 0 ∧ env.algorithm ≠ SC_ALGORITHM_RSA
    · rw [if_pos hA]
    · rw [if_neg hA]
      by_cases hK : env.flags &&& SC_SEC_ENV_KEY_REF_PRESENT = 0 ∨ env.key_ref_len ≠ 1
      · rw [if_pos hK]
      · rw [if_neg hK]
        by_cases hF : env.flags &&& SC_SEC_ENV_FILE_REF_PRESENT ≠ 0
        · rw [if_pos hF]
        · rw [if_neg hF]
          have hOp : env.operation ≠ SC_SEC_OPERATION_SIGN ∧
              env.operation ≠ SC_SEC_OPERATION_DECIPHER := by
            tauto
          rw [if_neg hOp.1, if_neg hOp.2]
  · intro hA hK hF
    have step : pgp_set_security_env priv env =
        (if env.operation = SC_SEC_OPERATION_SIGN then
           if env.key_ref.headD 0 ≠ 0x00 ∧ env.key_ref.headD 0 ≠ 0x02 then
             (priv, SC_ERROR_NOT_SUPPORTED)
           else ({ priv with sec_env := env }, SC_SUCCESS)
         else if env.operation = SC_SEC_OPERATION_DECIPHER then
           if env.key_ref.headD 0 ≠ 0x01 then (priv, SC_ERROR_NOT_SUPPORTED)
           else ({ priv with sec_env := env }, SC_SUCCESS)
         else (priv, SC_ERROR_INVALID_ARGUMENTS)) := by
      unfold pgp_set_security_env
      rw [if_neg hA, if_neg hK, if_neg (by simp [hF])]
    have hsd : env.operation = SC_SEC_OPERATION_DECIPHER →
        ¬ env.operation = SC_SEC_OPERATION_SIGN := by
      intro hD
      rw [hD]
      decide
    refine ⟨?_, ?_, ?_, ?_⟩
    · intro hS hk0 hk2
      rw [step, if_pos hS, if_pos ⟨hk0, hk2⟩]
    · intro hD hk1
      rw [step, if_neg (hsd hD), if_pos hD, if_pos hk1]
    · intro hS hor
      rw [step, if_pos hS, if_neg (by tauto)]
    · intro hD hk1
      rw [step, if_neg (hsd hD), if_pos hD, if_neg (not_not.mpr hk1)]
  · intro priv2 r h hr
    unfold pgp_set_security_env at h
    split_ifs at h <;> simp only [Prod.mk.injEq] at h <;>
      first
        | exact h.1.symm
        | exact absurd h.2.symm hr
  · intro priv2 h
    unfold pgp_set_security_env at h
    split_ifs at h <;> simp only [Prod.mk.injEq] at h <;>
      obtain ⟨h1, h2⟩ := h <;>
      first
        | exact absurd h2 (by decide)
        | (cases h1; rfl)

/-- A Sign env carrying the decipher-only key reference 0x01. -/
def envSignBadW : sc_security_env :=
  { flags := SC_SEC_ENV_KEY_REF_PRESENT, operation := SC_SEC_OPERATION_SIGN,
    algorithm := SC_ALGORITHM_RSA, key_ref := [0x01], key_ref_len := 1 }

/-- C5, witness: a key-reference-less env is rejected with
`INVALID_ARGUMENTS`; a Sign env with key ref 0x01 gets
`NOT_SUPPORTED`; a Sign env with key ref 0x00 is snapshotted with
success. -/
theorem C5_witness :
    pgp_set_security_env privReadW envZeroW = (privReadW, SC_ERROR_INVALID_ARGUMENTS) ∧
    pgp_set_security_env privReadW envSignBadW = (privReadW, SC_ERROR_NOT_SUPPORTED) ∧
    pgp_set_security_env privReadW envSignW =
      ({ privReadW with sec_env := envSignW }, SC_SUCCESS) :=
  ⟨(C5_theorem privReadW envZeroW).1 (Or.inr (Or.inl (Or.inl (by decide)))),
   ((C5_theorem privReadW envSignBadW).2.1 (by decide) (by decide) (by decide)).1
     rfl (by decide) (by decide),
   ((C5_theorem privReadW envSignW).2.1 (by decide) (by decide) (by decide)).2.2.1
     rfl (Or.inl rfl)⟩

/-- The descent specification of the path resolver: starting at a
blob, each id in order is found by child lookup with load — the
current blob is TLV-expanded (successfully), its ordered children are
searched for the first one carrying the id, and the descent continues
from the lazily-read child. -/
inductive Resolves (card : Card) : Blob → List Nat → Blob → Prop where
  | nil (b : Blob) : Resolves card b [] b
  | step {b b2 c final : Blob} {r : Int} {id : Nat} {ids : List Nat} :
      pgp_enumerate_blob card b = (b2, r) → 0 ≤ r →
      b2.files.find? (fun x => x.id == id) = some c →
      Resolves card (pgp_read_blob card c).1 ids final →
      Resolves card b (id :: ids) final

/-- A successful `pgp_get_blob` step, packaged for the loop lemmas. -/
theorem pgp_get_blob_ok (card : Card) (b b2 c : Blob) (id : Nat) (r : Int)
    (he : pgp_enumerate_blob card b = (b2, r)) (hr : 0 ≤ r)
    (hf : b2.files.find? (fun x => x.id == id) = some c) :
    (pgp_get_blob card b id).2 = .ok ((pgp_read_blob card c).1) := by
  unfold pgp_get_blob
  rw [he]
  simp only
  rw [if_neg (not_lt.mpr hr), hf]

/-- Every blob produced by the descent loop is reached by child
lookups with load, one per id in order. -/
theorem selectLoop_ok_resolves (card : Card) :
    ∀ (ids : List Nat) (b m : Blob), selectLoop card b ids = .ok m →
      Resolves card b ids m := by
  intro ids
  induction ids with
  | nil =>
    intro b m h
    simp only [selectLoop, Except.ok.injEq] at h
    subst h
    exact .nil b
  | cons id ids ih =>
    intro b m h
    unfold selectLoop at h
    rcases hget : pgp_get_blob card b id with ⟨bb, res⟩
    rw [hget] at h
    simp only at h
    cases res with
    | error e => cases h
    | ok child =>
      simp only at h
      unfold pgp_get_blob at hget
      rcases he : pgp_enumerate_blob card b with ⟨b2, r⟩
      rw [he] at hget
      simp only at hget
      by_cases hr : r < 0
      · rw [if_pos hr] at hget
        simp only [Prod.mk.injEq] at hget
        cases hget.2
      · rw [if_neg hr] at hget
        rcases hf : b2.files.find? (fun x => x.id == id) with _ | c
        · rw [hf] at hget
          simp only [Prod.mk.injEq] at hget
          cases hget.2
        · rw [hf] at hget
          simp only [Prod.mk.injEq, Except.ok.injEq] at hget
          exact Resolves.step he (not_lt.mp hr) hf (hget.2 ▸ ih child m h)

/-- Conversely, the descent loop succeeds on every descent the
specification admits (the loop is driven by the same deterministic
functions). -/
theorem resolves_selectLoop (card : Card) {ids : List Nat} {b m : Blob}
    (h : Resolves card b ids m) : selectLoop card b ids = .ok m := by
  induction h with
  | nil b => rfl
  | @step b b2 c final r id ids he hr hf hrest ih =>
    unfold selectLoop
    simp only [pgp_get_blob_ok card b b2 c id r he hr hf]
    exact ih

/-- If a prefix of the ids resolves to a blob whose successful
expansion lacks the next id among its children, the loop fails with
`FILE_NOT_FOUND`. -/
theorem resolves_missing (card : Card) {ids1 : List Nat} {b m : Blob}
    (hres : Resolves card b ids1 m) :
    ∀ (id : Nat) (ids2 : List Nat), 0 ≤ (pgp_enumerate_blob card m).2 →
      (pgp_enumerate_blob card m).1.files.find? (fun x => x.id == id) = none →
      selectLoop card b (ids1 ++ id :: ids2) = .error SC_ERROR_FILE_NOT_FOUND := by
  induction hres with
  | nil b =>
    intro id ids2 hr hf
    simp only [List.nil_append]
    unfold selectLoop
    have hstep : (pgp_get_blob card b id).2 = .error SC_ERROR_FILE_NOT_FOUND := by
      unfold pgp_get_blob
      rcases he2 : pgp_enumerate_blob card b with ⟨b2, r⟩
      rw [he2] at hr hf
      simp only at hr hf
      simp only
      rw [if_neg (not_lt.mpr hr), hf]
    simp only [hstep]
  | @step b b2 c final r id0 ids he hr2 hf2 hrest ih =>
    intro id ids2 hr hf
    simp only [List.cons_append]
    unfold selectLoop
    simp only [pgp_get_blob_ok card b b2 c id0 r he hr2 hf2]
    exact ih id ids2 hr hf

/-- C7: an ID path of odd length or length below 2 is rejected with
`INVALID_ARGUMENTS`; otherwise one leading `3F 00` is stripped and
the remaining 2-byte big-endian ids are resolved from the root by
child lookups with load — on success the resolved blob becomes the
current selection and its file view is returned, any failing descent
clears the selection, and a missing id fails with `FILE_NOT_FOUND`. -/
theorem C7_theorem (card : Card) (priv : PgpPriv) (p : ScPath)
    (hp : p.ptype = SC_PATH_TYPE_PATH) :
    ((p.value.length < 2 ∨ p.value.length % 2 = 1) →
      pgp_select_file card priv p = (priv, SelectResult.err SC_ERROR_INVALID_ARGUMENTS)) ∧
    (¬ (p.value.length < 2 ∨ p.value.length % 2 = 1) →
      (∀ priv2 f, pgp_select_file card priv p = (priv2, SelectResult.ok f) →
        ∃ b, priv2 = { priv with current := some b } ∧ f = b.file ∧
          Resolves card priv.mf (pathIds (stripRoot p.value)) b) ∧
      (∀ priv2 e, pgp_select_file card priv p = (priv2, SelectResult.err e) →
        priv2 = { priv with current := none }) ∧
      (∀ (ids1 : List Nat) (id : Nat) (ids2 : List Nat) (m : Blob),
        pathIds (stripRoot p.value) = ids1 ++ id :: ids2 →
        Resolves card priv.mf ids1 m →
        0 ≤ (pgp_enumerate_blob card m).2 →
        (pgp_enumerate_blob card m).1.files.find? (fun x => x.id == id) = none →
        (pgp_select_file card priv p).2 = SelectResult.err SC_ERROR_FILE_NOT_FOUND)) := by
  have h1 : ¬ p.ptype = SC_PATH_TYPE_DF_NAME := by
    rw [hp]
    decide
  have h2 : ¬ p.ptype ≠ SC_PATH_TYPE_PATH := not_not.mpr hp
  constructor
  · intro hlen
    unfold pgp_select_file
    rw [if_neg h1, if_neg h2, if_pos hlen]
  · intro hlen
    have key : pgp_select_file card priv p =
        (match selectLoop card priv.mf (pathIds (stripRoot p.value)) with
         | .error e => ({ priv with current := none }, SelectResult.err e)
         | .ok blob => ({ priv with current := some blob }, SelectResult.ok blob.file)) := by
      unfold pgp_select_file
      rw [if_neg h1, if_neg h2, if_neg hlen]
    refine ⟨?_, ?_, ?_⟩
    · intro priv2 f h
      rw [key] at h
      rcases hsel : selectLoop card priv.mf (pathIds (stripRoot p.value)) with e | blob
      · rw [hsel] at h
        simp only [Prod.mk.injEq] at h
        cases h.2
      · rw [hsel] at h
        simp only [Prod.mk.injEq, SelectResult.ok.injEq] at h
        exact ⟨blob, h.1.symm, h.2.symm, selectLoop_ok_resolves card _ _ _ hsel⟩
    · intro priv2 e h
      rw [key] at h
      rcases hsel : selectLoop card priv.mf (pathIds (stripRoot p.value)) with e2 | blob
      · rw [hsel] at h
        simp only [Prod.mk.injEq] at h
        exact h.1.symm
      · rw [hsel] at h
        simp only [Prod.mk.injEq] at h
        cases h.2
    · intro ids1 id ids2 m hsplit hres hr hf
      have hloop := resolves_missing card hres id ids2 hr hf
      rw [key, hsplit, hloop]

/-- A root blob seeded with exactly the cached AID leaf. -/
def mfSeedW : Blob :=
  Blob.mk { id := 0x3F00, info := none, status := 0, data := none, len := 0,
            file := { ftype := SC_FILE_TYPE_DF, size := 0 } } [leafBlobW]

/-- A fresh session over the seeded root. -/
def privSelW : PgpPriv := { mf := mfSeedW, current := none, sec_env := envZeroW }

/-- The ID path `3F00/004F`. -/
def pathSelW : ScPath := { ptype := SC_PATH_TYPE_PATH, value := [0x3F, 0x00, 0x00, 0x4F] }

/-- C7, witness: selecting `3F00/004F` on the seeded root installs
the leaf as the current selection, returns its file view, and the
descent is the one-step child lookup the specification describes. -/
theorem C7_witness :
    ∃ b, ({ privSelW with current := some leafBlobW } : PgpPriv) =
          { privSelW with current := some b } ∧
      leafBlobW.file = b.file ∧
      Resolves cardW privSelW.mf (pathIds (stripRoot pathSelW.value)) b :=
  ((C7_theorem cardW privSelW pathSelW rfl).2 (by decide)).1
    { privSelW with current := some leafBlobW } leafBlobW.file rfl

end OpenPGP
